import Mathlib

/-!
Verification development for the VSCode workspaceStorage cleaner.

The repository consists of two near-duplicate iterations of one script:
`main.py` (earlier) and `workspaceStorage_cleaner.py` (final).  The
definitions below are a shallow embedding of the classification and
reclamation engine:

* a directory tree model (`FSEntry`) for the recursive size computation
  `getSizeOfFolder`;
* a model of the storage root's immediate children (`RootChild`), where a
  child is either a stray regular file or an entry directory carrying the
  parse status of its `workspace.json` manifest (`ManifestState`), its
  last-modification time in seconds, and its contents;
* the scan `parseWSSFolder` (the loop bodies of both scripts differ only in
  the workspace-existence check: `os.path.exists` in `main.py`,
  `Path.is_dir` in `workspaceStorage_cleaner.py`, so the scan is
  parameterised by that check);
* the planner (`unwantedFolders`, sizes, percentage) and the deletion loop
  (`reclaim`) of `main`; the percentage pipeline models CPython's float
  true division as the correctly rounded binary64 value (`trueDivFloat`)
  and `round(x, 2)` as two-decimal rounding, ties to even, of the double's
  exact value (`round2`);
* a fueled directory-graph semantics (`sizeDirFuel`) used to reason about
  termination of the recursive size computation in the presence of
  symbolic-link cycles.
-/

/-- Status of a path in the external filesystem (the world outside the
storage root), used for the `folder`-reference existence checks. -/
inductive PathKind where
  | nonexistent
  | file
  | dir
deriving DecidableEq, Repr

/-- One node of a directory tree: a regular file with a byte size, or a
subdirectory with its children.  Names are kept for fidelity to directory
listings. -/
inductive FSEntry where
  | file (name : String) (size : Nat)
  | dir (name : String) (children : List FSEntry)

/-- `getSizeOfFolder` from both scripts, on the children of a folder: the
loop adds the size of every regular file and recurses into every
subdirectory. -/
def getSizeOfFolder : List FSEntry → Nat
  | [] => 0
  | FSEntry.file _ s :: rest => s + getSizeOfFolder rest
  | FSEntry.dir _ cs :: rest => getSizeOfFolder cs + getSizeOfFolder rest

/-- Specification-side helper: the multiset (as a list) of the byte sizes of
all regular files anywhere under a list of entries. -/
def fileSizesList : List FSEntry → List Nat
  | [] => []
  | FSEntry.file _ s :: rest => s :: fileSizesList rest
  | FSEntry.dir _ cs :: rest => fileSizesList cs ++ fileSizesList rest

/-- The `Folder` record built by `parseWSSFolder` in both scripts. -/
structure Folder where
  path : String
  workspace_exists : Bool
  is_old : Bool
  sizeinbytes : Nat
deriving DecidableEq, Repr

/-- Parse status of an entry directory's `workspace.json` manifest:
`missing` (the file is absent or unreadable, so `open` raises),
`malformed` (the text is not valid JSON, so `json.loads` raises),
`noFolderKey` (a JSON object without a `folder` key), or
`folderUri target` (a JSON object whose `folder` key is a URI; `target` is
the plain filesystem path obtained from it by
`unquote(urlparse(uri).path)`). -/
inductive ManifestState where
  | missing
  | malformed
  | noFolderKey
  | folderUri (target : String)
deriving DecidableEq, Repr

/-- An immediate child of the storage root as seen by the scan loop: either
a stray regular file, or an entry directory with its manifest state, its
last-modification time (`st_mtime`, in whole seconds), and its contents
(which include the `workspace.json` file itself). -/
inductive RootChild where
  | file (name : String) (size : Nat)
  | entryDir (name : String) (manifest : ManifestState) (mtime : Int)
      (contents : List FSEntry)

/-- `getSizeOfFolder` applied to the storage root itself: stray regular
files among the root's children add their size, entry directories recurse. -/
def getSizeOfRoot : List RootChild → Nat
  | [] => 0
  | RootChild.file _ s :: rest => s + getSizeOfRoot rest
  | RootChild.entryDir _ _ _ contents :: rest =>
      getSizeOfFolder contents + getSizeOfRoot rest

/-- `timedelta.days` of a delta of `seconds` seconds: Python normalises a
`timedelta` so that `days` is the floor of the total duration in days. -/
def timedeltaDays (seconds : Int) : Int := Int.fdiv seconds 86400

/-- The staleness test of `parseWSSFolder`:
`is_old = (now - last_modified).days > 30`. -/
def isOld (now mtime : Int) : Bool := decide (30 < timedeltaDays (now - mtime))

/-- The workspace-existence check of the final script
(`workspaceStorage_cleaner.py`): `Path(target).is_dir()`. -/
def isDirCheck : PathKind → Bool
  | PathKind.dir => true
  | _ => false

/-- The workspace-existence check of the earlier script (`main.py`):
`os.path.exists(target)`. -/
def existsCheck : PathKind → Bool
  | PathKind.nonexistent => false
  | _ => true

/-- One iteration of the `parseWSSFolder` loop on one root child, relative
to an external `world` (status of paths outside the storage root) and the
current time `now`.  `Except.error` models an uncaught exception escaping
the loop, `Except.ok none` models the `continue` taken when the manifest
has no `folder` key, and `Except.ok (some f)` is an appended `Folder`.
A root child that is a regular file makes `open(child / "workspace.json")`
raise; a missing or unreadable manifest makes `open` raise; malformed JSON
makes `json.loads` raise. -/
def parseChildWith (check : PathKind → Bool) (world : String → PathKind)
    (now : Int) : RootChild → Except String (Option Folder)
  | RootChild.file _ _ => Except.error "NotADirectoryError"
  | RootChild.entryDir name manifest mtime contents =>
    match manifest with
    | ManifestState.missing => Except.error "FileNotFoundError"
    | ManifestState.malformed => Except.error "JSONDecodeError"
    | ManifestState.noFolderKey => Except.ok none
    | ManifestState.folderUri target =>
        Except.ok (some
          { path := name
            workspace_exists := check (world target)
            is_old := isOld now mtime
            sizeinbytes := getSizeOfFolder contents })

/-- The `parseWSSFolder` loop over the root's children.  An exception from
any iteration propagates and aborts the whole scan (there is no per-entry
handler in either script); a `continue` skips the child; otherwise the
child's `Folder` is prepended to the remaining results (list order is
preserved). -/
def parseWSSFolderWith (check : PathKind → Bool) (world : String → PathKind)
    (now : Int) : List RootChild → Except String (List Folder)
  | [] => Except.ok []
  | c :: rest =>
    match parseChildWith check world now c with
    | Except.error e => Except.error e
    | Except.ok none => parseWSSFolderWith check world now rest
    | Except.ok (some f) =>
      match parseWSSFolderWith check world now rest with
      | Except.error e => Except.error e
      | Except.ok l => Except.ok (f :: l)

/-- `parseWSSFolder` of the final script, whose existence check is
`Path(target).is_dir()`. -/
def parseWSSFolder (world : String → PathKind) (now : Int)
    (children : List RootChild) : Except String (List Folder) :=
  parseWSSFolderWith isDirCheck world now children

/-- `parseWSSFolder` of the earlier `main.py`, whose existence check is
`os.path.exists(target)`. -/
def parseWSSFolderMainPy (world : String → PathKind) (now : Int)
    (children : List RootChild) : Except String (List Folder) :=
  parseWSSFolderWith existsCheck world now children

/-- The planner's filter in `main`:
`unwanted_folders = [x for x in folders if x.is_old or not x.workspace_exists]`. -/
def unwantedFolders (folders : List Folder) : List Folder :=
  folders.filter (fun x => x.is_old || !x.workspace_exists)

/-- `unwanted_size = sum(x.sizeinbytes for x in unwanted_folders)`. -/
def unwantedSize (folders : List Folder) : Nat :=
  ((unwantedFolders folders).map Folder.sizeinbytes).sum

/-- Round a rational to the nearest integer, ties to the even integer, as
Python's builtin `round` does. -/
def roundHalfEven (q : ℚ) : ℤ :=
  if q - Int.floor q < 1 / 2 then Int.floor q
  else if 1 / 2 < q - Int.floor q then Int.floor q + 1
  else if Int.floor q % 2 = 0 then Int.floor q else Int.floor q + 1

/-- Python's `round(x, 2)`: round to two decimal digits, ties to even. -/
def round2 (q : ℚ) : ℚ := (roundHalfEven (q * 100) : ℚ) / 100

/-- `⌊log2 n⌋` (0 at 0), by fuelled halving so that concrete values reduce
in the kernel; the fuel `n` always dominates the recursion depth. -/
def log2Fuel : Nat → Nat → Nat
  | 0, _ => 0
  | fuel + 1, n => if 2 ≤ n then log2Fuel fuel (n / 2) + 1 else 0

/-- `⌊log2 n⌋` of a positive natural. -/
def natLog2 (n : Nat) : Nat := log2Fuel n n

/-- Whether `a / b ≥ 2 ^ k`, by cross-multiplication (one of the two
exponents is zero). -/
def geTwoPow (a b : Nat) (k : ℤ) : Bool :=
  b * 2 ^ k.toNat ≤ a * 2 ^ (-k).toNat

/-- `⌊log2 (a / b)⌋` for positive `a`, `b`.  With `la = ⌊log2 a⌋` and
`lb = ⌊log2 b⌋` one has `2 ^ (la - lb - 1) < a / b < 2 ^ (la - lb + 1)`,
so the floor is `la - lb` or `la - lb - 1`, decided by one comparison. -/
def floorLog2Rat (a b : Nat) : ℤ :=
  let d : ℤ := (natLog2 a : ℤ) - (natLog2 b : ℤ)
  if geTwoPow a b d then d else d - 1

/-- `a / b` rounded to the nearest natural, ties to even, by Euclidean
division: the round-to-nearest-even step of IEEE-754 arithmetic. -/
def divRoundHalfEven (a b : Nat) : Nat :=
  let q := a / b
  let r := a % b
  if 2 * r < b then q
  else if b < 2 * r then q + 1
  else if q % 2 = 0 then q else q + 1

/-- The binary64 value nearest to `a / b` (round to nearest, ties to even),
as `(significand, positive exponent, negative exponent)`: the value is
`m * 2 ^ p / 2 ^ q`.  The significand is the 53-bit rounding of `a / b`
scaled into `[2^52, 2^53)`; covers the normal range of binary64, which
holds every quotient this program forms (`t > 0`; `t = 0` raises
`ZeroDivisionError` in Python before any rounding). -/
def float64Parts (a b : Nat) : Nat × Nat × Nat :=
  let k := floorLog2Rat a b
  let m := divRoundHalfEven (a * 2 ^ (52 - k).toNat) (b * 2 ^ (k - 52).toNat)
  (m, (k - 52).toNat, (52 - k).toNat)

/-- CPython's true division `a / b` of two non-negative ints: the
correctly rounded (nearest, ties to even) binary64 of the exact quotient,
returned as the exact rational value of that double. -/
def trueDivFloat (a b : Nat) : ℚ :=
  let p := float64Parts a b
  ((p.1 * 2 ^ p.2.1 : Nat) : ℚ) / ((2 ^ p.2.2 : Nat) : ℚ)

/-- The percentage reported by `main`, including its early return: after
`if not unwanted_folders: return`, it computes
`percentage = round(100 * unwanted_size / total_size, 2)`.
`100 * unwanted_size` is exact int arithmetic; `/` is CPython float true
division (`trueDivFloat`); `round(x, 2)` rounds the exact value of the
double `x` to the closest multiple of 1/100, ties to the even multiple
(`round2`) — a tie needs a denominator divisible by 25, which no dyadic
double value has, so the tie rule is unreachable here.  The chosen
multiple is what the program displays (its storage as the nearest double
and shortest-round-trip repr reproduce the same two-decimal value at
these magnitudes), so the model keeps the exact decimal. -/
def mainPercentageReport (folders : List Folder) (total_size : Nat) :
    Option ℚ :=
  if unwantedFolders folders = [] then none
  else some (round2 (trueDivFloat (100 * unwantedSize folders) total_size))

/-- Modelled from the spec (section 3):
`eligiblePercentage = 100 * totalEligibleBytes / totalStorageBytes`,
rounded to 2 decimal digits, to be compared with the code's computation. -/
def eligiblePercentageSpec (eligibleBytes totalBytes : Nat) : ℚ :=
  round2 ((100 * (eligibleBytes : ℚ)) / (totalBytes : ℚ))

/-- The per-item progress line of the deletion loop of the final script:
`Removing "<name>" (<i>/<n>)`, printed before the `shutil.rmtree` call. -/
def progressLine (name : String) (i n : Nat) : String :=
  "Removing " ++ "\"" ++ name ++ "\"" ++ " (" ++ toString i ++ "/" ++
    toString n ++ ")"

/-- The deletion loop of `main`, driven by an abstract `rmtree` effect:
`fail p = none` means `shutil.rmtree(p)` succeeds and removes the tree,
`fail p = some e` means it raises an exception rendered as `e`.  Returns,
in loop order: the paths `rmtree` was called on, the paths actually
removed, the progress lines printed, and the exception if one was raised.
On an exception the loop stops immediately (remaining items are never
attempted). -/
def reclaimGo (fail : String → Option String) (total : Nat) :
    Nat → List Folder → List String × List String × List String × Option String
  | _, [] => ([], [], [], none)
  | i, f :: rest =>
    let line := progressLine f.path (i + 1) total
    match fail f.path with
    | some e => ([f.path], [], [line], some e)
    | none =>
      let r := reclaimGo fail total (i + 1) rest
      (f.path :: r.1, f.path :: r.2.1, line :: r.2.2.1, r.2.2.2)

/-- Observable outcome of one run of the deletion loop. -/
structure ReclaimOutcome where
  attempted : List String
  deleted : List String
  progressLines : List String
  finalMessage : String
deriving DecidableEq, Repr

/-- The confirmed-deletion phase of `main` in the final script: run the
loop over the unwanted folders; afterwards print either the success
message, or (in the `except` handler) the failure message naming the
exception.  Nothing else is printed after a failure. -/
def reclaim (fail : String → Option String) (unwanted : List Folder) :
    ReclaimOutcome :=
  let r := reclaimGo fail unwanted.length 0 unwanted
  { attempted := r.1
    deleted := r.2.1
    progressLines := r.2.2.1
    finalMessage :=
      match r.2.2.2 with
      | none => "Successfully cleared all unused folders!"
      | some e =>
          "Caught an exception while removing folders: " ++ e ++
            ". Aborting..." }

/-- `askForValidWSSPath`, fuelled by the (finite) list of paths the user
will type: it returns the first input satisfying `isValidWSSPath`, and
`none` models the loop still waiting for input. -/
def askForValidWSSPath (valid : String → Bool) : List String → Option String
  | [] => none
  | p :: rest =>
      if valid p then some p else askForValidWSSPath valid rest

/-- The path-selection prefix of `main`, returning the path on which
`parseWSSFolder(wss_path)` is then invoked (`none`: the run ends or blocks
before the scan).  Mirrors the source faithfully: in both branches that
call `askForValidWSSPath()`, its return value is DISCARDED and `wss_path`
keeps its original value, so the scan, when reached, always runs on the
default path. -/
def mainScanPath (valid : String → Bool) (defaultPath : String)
    (inputs : List String) (wantsAlternative : Bool) : Option String :=
  if defaultPath = "" then none
  else if valid defaultPath = false then
    match askForValidWSSPath valid inputs with
    | none => none
    | some _ => some defaultPath
  else if wantsAlternative then
    match askForValidWSSPath valid inputs with
    | none => none
    | some _ => some defaultPath
  else
    some defaultPath

/-- An item of a directory in the graph model of the filesystem used for
termination analysis: a regular file of a given size, or a reference to a
directory node (which a followed symbolic link may make non-tree-like). -/
inductive DirItem where
  | file (size : Nat)
  | subdir (d : Nat)
deriving DecidableEq, Repr

mutual
/-- Fuelled semantics of `getSizeOfFolder` over a directory graph
`g : Nat → List DirItem` (node `d` lists the children of directory `d`):
entering a directory consumes one unit of fuel, mirroring one level of
recursion; `none` means the fuel was exhausted, i.e. the recursion of the
source, which has no visited-set or depth cap, would still be running. -/
def sizeDirFuel (g : Nat → List DirItem) (fuel : Nat) (d : Nat) :
    Option Nat :=
  match fuel with
  | 0 => none
  | f + 1 => sizeItemsFuel g f (g d)
termination_by (fuel, 0)

/-- The loop of `getSizeOfFolder` over a directory's item list, in the
fuelled graph semantics. -/
def sizeItemsFuel (g : Nat → List DirItem) (fuel : Nat) :
    List DirItem → Option Nat
  | [] => some 0
  | DirItem.file s :: rest =>
    match sizeItemsFuel g fuel rest with
    | none => none
    | some r => some (s + r)
  | DirItem.subdir d :: rest =>
    match sizeDirFuel g fuel d with
    | none => none
    | some a =>
      match sizeItemsFuel g fuel rest with
      | none => none
      | some b => some (a + b)
termination_by items => (fuel, items.length + 1)
end



/-! ### Concrete fixtures used by witnesses and counterexamples -/

/-- A world in which `/tmp/somefile` is a regular file and nothing else
exists. -/
def fileOnlyWorld : String → PathKind :=
  fun s => if s = "/tmp/somefile" then PathKind.file else PathKind.nonexistent

/-- A world in which `/home/u/proj` is a directory and nothing else
exists. -/
def oneDirWorld : String → PathKind :=
  fun s => if s = "/home/u/proj" then PathKind.dir else PathKind.nonexistent

/-- A storage root with one orphaned entry (its target does not exist) and
one live entry (its target is a directory). -/
def twoEntryRoot : List RootChild :=
  [RootChild.entryDir "aaa" (ManifestState.folderUri "/tmp/does-not-exist") 0
      [FSEntry.file "workspace.json" 60],
   RootChild.entryDir "bbb" (ManifestState.folderUri "/home/u/proj") 0
      [FSEntry.file "workspace.json" 40, FSEntry.dir "state" [FSEntry.file "db" 100]]]

/-- Five eligible folders for the partial-failure deletion scenario. -/
def fiveFolders : List Folder :=
  [{ path := "p1", workspace_exists := false, is_old := true, sizeinbytes := 10 },
   { path := "p2", workspace_exists := false, is_old := true, sizeinbytes := 20 },
   { path := "p3", workspace_exists := false, is_old := true, sizeinbytes := 30 },
   { path := "p4", workspace_exists := false, is_old := true, sizeinbytes := 40 },
   { path := "p5", workspace_exists := false, is_old := true, sizeinbytes := 50 }]

/-- An `rmtree` effect that raises a permission error on `p3` and succeeds
everywhere else. -/
def failOnP3 : String → Option String :=
  fun p => if p = "p3" then some "Permission denied" else none

/-- Inventory for the percentage scenario: total 1000 bytes of which the
single eligible (stale) entry holds 250. -/
def percentFolders : List Folder :=
  [{ path := "a", workspace_exists := true, is_old := true, sizeinbytes := 250 },
   { path := "b", workspace_exists := true, is_old := false, sizeinbytes := 750 }]

/-- Inventory exercising a one-ulp rounding effect: 2675 eligible bytes of
100000 total, so the exact ratio is 2.675 % but the double nearest
267500/100000 lies just below 2.675. -/
def ulpFolders : List Folder :=
  [{ path := "a", workspace_exists := true, is_old := true,
     sizeinbytes := 2675 },
   { path := "b", workspace_exists := true, is_old := false,
     sizeinbytes := 97325 }]

/-- A two-node acyclic directory graph: directory 0 holds one file of 5
bytes and a subdirectory 1, which holds one file of 3 bytes. -/
def acyclicGraph : Nat → List DirItem :=
  fun d => if d = 0 then [DirItem.file 5, DirItem.subdir 1]
           else if d = 1 then [DirItem.file 3] else []

/-- A rank function witnessing that `acyclicGraph` is acyclic. -/
def acyclicRank : Nat → Nat := fun d => if d = 0 then 1 else 0

/-- A one-node graph in which directory 0 contains a (symlinked) reference
back to itself. -/
def loopGraph : Nat → List DirItem := fun _ => [DirItem.subdir 0]

/-! ### Helper lemmas -/

/-- Every folder in a successful scan's inventory originates in a root
child whose manifest resolved a `folder` URI, and its fields are computed
from that child. -/
theorem parse_mem_source (check : PathKind → Bool) (world : String → PathKind)
    (now : Int) :
    ∀ children l (f : Folder),
      parseWSSFolderWith check world now children = Except.ok l → f ∈ l →
      ∃ name target mtime contents,
        RootChild.entryDir name (ManifestState.folderUri target) mtime
            contents ∈ children ∧
        f.path = name ∧
        f.workspace_exists = check (world target) ∧
        f.is_old = isOld now mtime ∧
        f.sizeinbytes = getSizeOfFolder contents := by
  intro children
  induction children with
  | nil =>
    intro l f hok hf
    simp only [parseWSSFolderWith] at hok
    cases hok
    cases hf
  | cons c rest ih =>
    intro l f hok hf
    cases c with
    | file name size => simp [parseWSSFolderWith, parseChildWith] at hok
    | entryDir name m mtime contents =>
      cases m with
      | missing => simp [parseWSSFolderWith, parseChildWith] at hok
      | malformed => simp [parseWSSFolderWith, parseChildWith] at hok
      | noFolderKey =>
        simp only [parseWSSFolderWith, parseChildWith] at hok
        obtain ⟨nm, tg, mt, ct, hmem, hrest⟩ := ih l f hok hf
        exact ⟨nm, tg, mt, ct, List.mem_cons_of_mem _ hmem, hrest⟩
      | folderUri target =>
        simp only [parseWSSFolderWith, parseChildWith] at hok
        cases hrest : parseWSSFolderWith check world now rest with
        | error e => rw [hrest] at hok; cases hok
        | ok l' =>
          rw [hrest] at hok
          cases hok
          rcases List.mem_cons.mp hf with hfe | hfl
          · subst hfe
            exact ⟨name, target, mtime, contents, List.mem_cons_self _ _,
              rfl, rfl, rfl, rfl⟩
          · obtain ⟨nm, tg, mt, ct, hmem, hrest2⟩ := ih l' f hrest hfl
            exact ⟨nm, tg, mt, ct, List.mem_cons_of_mem _ hmem, hrest2⟩

/-- A folder with a false existence flag belongs to the unwanted set of any
inventory containing it, whatever its modification time. -/
theorem mem_unwanted_of_not_exists {l : List Folder} {f : Folder}
    (hf : f ∈ l) (hwe : f.workspace_exists = false) :
    f ∈ unwantedFolders l := by
  simp [unwantedFolders, List.mem_filter, hf, hwe]

/-- A successful scan returns at most one folder per root child. -/
theorem parse_length_le (check : PathKind → Bool) (world : String → PathKind)
    (now : Int) :
    ∀ children l,
      parseWSSFolderWith check world now children = Except.ok l →
      l.length ≤ children.length := by
  intro children
  induction children with
  | nil =>
    intro l hok
    simp only [parseWSSFolderWith] at hok
    cases hok
    simp
  | cons c rest ih =>
    intro l hok
    cases c with
    | file name size => simp [parseWSSFolderWith, parseChildWith] at hok
    | entryDir name m mtime contents =>
      cases m with
      | missing => simp [parseWSSFolderWith, parseChildWith] at hok
      | malformed => simp [parseWSSFolderWith, parseChildWith] at hok
      | noFolderKey =>
        simp only [parseWSSFolderWith, parseChildWith] at hok
        exact Nat.le_succ_of_le (ih l hok)
      | folderUri target =>
        simp only [parseWSSFolderWith, parseChildWith] at hok
        cases hrest : parseWSSFolderWith check world now rest with
        | error e => rw [hrest] at hok; cases hok
        | ok l' =>
          rw [hrest] at hok
          cases hok
          simpa using ih l' hrest

/-! ### Claim theorems -/

/-- C1: an entry is placed in the unwanted (deletion) set by the list
comprehension in `main` iff it is in the scanned inventory and is stale or
its referenced workspace does not exist; entries that are neither are
never selected. -/
theorem c1_unwanted_iff_stale_or_orphaned (folders : List Folder)
    (f : Folder) :
    f ∈ unwantedFolders folders ↔
      f ∈ folders ∧ (f.is_old = true ∨ f.workspace_exists = false) := by
  simp [unwantedFolders, List.mem_filter, Bool.or_eq_true, Bool.not_eq_true']

/-- C2 counterexample: an entry last modified 30 days 1 second before now
is NOT considered old by the code (`delta.days` is 30, and `30 > 30` is
false), contradicting the claim that it IS stale. -/
theorem c2_boundary_cex : isOld (30 * 86400 + 1) 0 = false := by decide

/-- C2 (amended): `is_old` is true exactly when the delta reaches 31 whole
days; an entry modified exactly 30 days before now is NOT stale, one
modified 30 days 1 second before now is ALSO NOT stale, and one modified
31 days before now IS stale. -/
theorem c2_staleness_boundary :
    (∀ now mtime : Int,
        isOld now mtime = true ↔ 31 * 86400 ≤ now - mtime) ∧
    isOld (30 * 86400) 0 = false ∧
    isOld (30 * 86400 + 1) 0 = false ∧
    isOld (31 * 86400) 0 = true := by
  refine ⟨fun now mtime => ?_, by decide, by decide, by decide⟩
  unfold isOld timedeltaDays
  rw [decide_eq_true_iff, Int.fdiv_eq_ediv _ (by norm_num),
    Int.lt_iff_add_one_le, Int.le_ediv_iff_mul_le (by norm_num)]
  norm_num

/-- C7: for every directory (list of children), `getSizeOfFolder` returns
exactly the sum of the byte sizes of all regular files anywhere under it;
directories contribute only through their contents. -/
theorem c7_getSizeOfFolder_sum (l : List FSEntry) :
    getSizeOfFolder l = (fileSizesList l).sum := by
  induction l using getSizeOfFolder.induct with
  | case1 => simp [getSizeOfFolder, fileSizesList]
  | case2 _ s rest ih => simp [getSizeOfFolder, fileSizesList, ih]
  | case3 _ cs rest ih1 ih2 =>
      simp [getSizeOfFolder, fileSizesList, ih1, ih2]

/-- C3 counterexample: a storage root whose first entry has a malformed
`workspace.json` makes the whole scan raise `json.JSONDecodeError`; the
healthy second entry is never inventoried, so a malformed manifest is NOT
a recoverable per-entry condition. -/
theorem c3_malformed_manifest_aborts_cex :
    parseWSSFolder (fun _ => PathKind.dir) 0
        [RootChild.entryDir "aaa" ManifestState.malformed 0
            [FSEntry.file "workspace.json" 10],
         RootChild.entryDir "bbb" (ManifestState.folderUri "/home/u/proj") 0
            [FSEntry.file "workspace.json" 10]] =
      Except.error "JSONDecodeError" := by
  rfl

/-- C3 (amended): the only per-entry recoverable condition in
`parseWSSFolder` is a manifest that parses but lacks the `folder` key (the
entry is skipped and the scan continues); a missing/unreadable manifest or
malformed JSON raises an exception that aborts the entire scan. -/
theorem c3_manifest_error_propagation (check : PathKind → Bool)
    (world : String → PathKind) (now : Int) (name : String) (mtime : Int)
    (contents : List FSEntry) (rest : List RootChild) :
    parseWSSFolderWith check world now
        (RootChild.entryDir name ManifestState.noFolderKey mtime contents
          :: rest) =
      parseWSSFolderWith check world now rest ∧
    parseWSSFolderWith check world now
        (RootChild.entryDir name ManifestState.malformed mtime contents
          :: rest) =
      Except.error "JSONDecodeError" ∧
    parseWSSFolderWith check world now
        (RootChild.entryDir name ManifestState.missing mtime contents
          :: rest) =
      Except.error "FileNotFoundError" := by
  refine ⟨?_, ?_, ?_⟩ <;> simp [parseWSSFolderWith, parseChildWith]

/-- C4: `main` finds the default root invalid, calls `askForValidWSSPath()`
(which here returns the valid `/tmp/valid`), yet scans the original
invalid default path, because the returned path is discarded and
`wss_path` is never reassigned. -/
theorem c4_invalid_root_is_scanned :
    mainScanPath (fun s => s == "/tmp/valid")
        "/home/u/.config/Code/User/workspaceStorage/" ["/tmp/valid"] false =
      some "/home/u/.config/Code/User/workspaceStorage/" ∧
    (fun s => s == "/tmp/valid")
        "/home/u/.config/Code/User/workspaceStorage/" = false ∧
    askForValidWSSPath (fun s => s == "/tmp/valid") ["/tmp/valid"] =
      some "/tmp/valid" := by
  refine ⟨by rfl, by rfl, by rfl⟩

/-- C5 counterexample: in `main.py`, an entry whose `folder` URI resolves
to `/tmp/somefile`, a regular FILE (not a directory), is classified with
`workspace_exists = true`, because `os.path.exists` is used instead of an
is-a-directory check; the claim's "exists AND is a directory" is violated
by that script. -/
theorem c5_exists_check_cex :
    parseWSSFolderMainPy fileOnlyWorld 0
        [RootChild.entryDir "eee" (ManifestState.folderUri "/tmp/somefile") 0
            [FSEntry.file "workspace.json" 10]] =
      Except.ok [{ path := "eee", workspace_exists := true, is_old := false,
                   sizeinbytes := 10 }] ∧
    fileOnlyWorld "/tmp/somefile" ≠ PathKind.dir := by
  refine ⟨?_, by decide⟩
  simp [parseWSSFolderMainPy, parseWSSFolderWith, parseChildWith,
    fileOnlyWorld, existsCheck, isOld, timedeltaDays, getSizeOfFolder]

/-- C5 (amended): in the final script every classified entry has
`workspace_exists = true` iff its resolved target currently exists as a
directory, and an entry whose flag is false is in the unwanted set
whatever its modification time; in the earlier `main.py` the flag is
instead true iff the target exists at all (a regular file also counts). -/
theorem c5_workspace_exists_semantics :
    (∀ world now children l (f : Folder),
       parseWSSFolder world now children = Except.ok l → f ∈ l →
       ∃ name target mtime contents,
         RootChild.entryDir name (ManifestState.folderUri target) mtime
             contents ∈ children ∧
         (f.workspace_exists = true ↔ world target = PathKind.dir) ∧
         (f.workspace_exists = false → f ∈ unwantedFolders l)) ∧
    (∀ world now children l (f : Folder),
       parseWSSFolderMainPy world now children = Except.ok l → f ∈ l →
       ∃ name target mtime contents,
         RootChild.entryDir name (ManifestState.folderUri target) mtime
             contents ∈ children ∧
         (f.workspace_exists = true ↔ world target ≠ PathKind.nonexistent) ∧
         (f.workspace_exists = false → f ∈ unwantedFolders l)) := by
  constructor
  · intro world now children l f hok hf
    obtain ⟨nm, tg, mt, ct, hmem, _, hwe, _, _⟩ :=
      parse_mem_source isDirCheck world now children l f hok hf
    refine ⟨nm, tg, mt, ct, hmem, ?_, fun h => mem_unwanted_of_not_exists hf h⟩
    rw [hwe]
    cases world tg <;> simp [isDirCheck]
  · intro world now children l f hok hf
    obtain ⟨nm, tg, mt, ct, hmem, _, hwe, _, _⟩ :=
      parse_mem_source existsCheck world now children l f hok hf
    refine ⟨nm, tg, mt, ct, hmem, ?_, fun h => mem_unwanted_of_not_exists hf h⟩
    rw [hwe]
    cases world tg <;> simp [existsCheck]

/-- C5 witness: the amended theorem applied to a concrete scan of
`twoEntryRoot`, at the orphaned folder `aaa` whose target
`/tmp/does-not-exist` is absent. -/
theorem c5_workspace_exists_semantics_witness :
    ∃ name target mtime contents,
      RootChild.entryDir name (ManifestState.folderUri target) mtime
          contents ∈ twoEntryRoot ∧
      (Folder.workspace_exists
          { path := "aaa", workspace_exists := false, is_old := false,
            sizeinbytes := 60 } = true ↔
        oneDirWorld target = PathKind.dir) ∧
      (Folder.workspace_exists
          { path := "aaa", workspace_exists := false, is_old := false,
            sizeinbytes := 60 } = false →
        { path := "aaa", workspace_exists := false, is_old := false,
          sizeinbytes := 60 } ∈
          unwantedFolders
            [{ path := "aaa", workspace_exists := false, is_old := false,
               sizeinbytes := 60 },
             { path := "bbb", workspace_exists := true, is_old := false,
               sizeinbytes := 140 }]) :=
  c5_workspace_exists_semantics.1 oneDirWorld 0 twoEntryRoot
    [{ path := "aaa", workspace_exists := false, is_old := false,
       sizeinbytes := 60 },
     { path := "bbb", workspace_exists := true, is_old := false,
       sizeinbytes := 140 }]
    { path := "aaa", workspace_exists := false, is_old := false,
      sizeinbytes := 60 }
    (by simp [parseWSSFolder, parseWSSFolderWith, parseChildWith, twoEntryRoot,
        oneDirWorld, isDirCheck, isOld, timedeltaDays, getSizeOfFolder])
    (by simp)

/-- Behaviour of the deletion loop when every folder before `f` deletes
cleanly and deleting `f` raises `reason`: the loop attempts exactly the
clean prefix plus `f`, removes exactly the clean prefix, and stops with
the exception. -/
theorem reclaimGo_fail_parts (fail : String → Option String) (total : Nat)
    (f : Folder) (reason : String) (rest : List Folder)
    (hf : fail f.path = some reason) :
    ∀ pre i, (∀ g ∈ pre, fail g.path = none) →
      (reclaimGo fail total i (pre ++ f :: rest)).1 =
          pre.map Folder.path ++ [f.path] ∧
      (reclaimGo fail total i (pre ++ f :: rest)).2.1 =
          pre.map Folder.path ∧
      (reclaimGo fail total i (pre ++ f :: rest)).2.2.2 = some reason := by
  intro pre
  induction pre with
  | nil =>
    intro i h
    simp [reclaimGo, hf]
  | cons g pre ih =>
    intro i h
    have hg : fail g.path = none := h g (List.mem_cons_self g pre)
    have hrest := ih (i + 1) (fun x hx => h x (List.mem_cons_of_mem g hx))
    simp [reclaimGo, hg, hrest.1, hrest.2.1, hrest.2.2]

/-- C6 counterexample: with five eligible entries and deletion of `p3`
raising a permission error, `p1` and `p2` are deleted, `p4`/`p5` are never
attempted — but the only output after the failure is the exception
message, which does not state the number (2) of successful deletions: the
digit `2` does not even occur in it, so the claim's "exactly 2 successful
deletions are reported" does not hold. -/
theorem c6_success_count_not_reported_cex :
    (reclaim failOnP3 fiveFolders).deleted = ["p1", "p2"] ∧
    (reclaim failOnP3 fiveFolders).attempted = ["p1", "p2", "p3"] ∧
    (reclaim failOnP3 fiveFolders).finalMessage =
      "Caught an exception while removing folders: Permission denied. Aborting..." ∧
    '2' ∉ (reclaim failOnP3 fiveFolders).finalMessage.data := by
  refine ⟨by decide, by decide, by decide, by decide⟩

/-- C6 (amended): entries are deleted one at a time in the exact order of
the deletion set; if deleting entry k fails, entries 1..k-1 remain deleted,
entries k+1..n are never attempted, and the message printed after the
failure reports the specific failure reason — but not the count of
successful deletions, which is only inferable from the per-item progress
lines. -/
theorem c6_partial_failure_semantics (fail : String → Option String)
    (pre : List Folder) (f : Folder) (rest : List Folder) (reason : String)
    (hpre : ∀ g ∈ pre, fail g.path = none)
    (hf : fail f.path = some reason) :
    (reclaim fail (pre ++ f :: rest)).attempted =
        pre.map Folder.path ++ [f.path] ∧
    (reclaim fail (pre ++ f :: rest)).deleted = pre.map Folder.path ∧
    (reclaim fail (pre ++ f :: rest)).finalMessage =
      "Caught an exception while removing folders: " ++ reason ++
        ". Aborting..." := by
  have h := reclaimGo_fail_parts fail (pre ++ f :: rest).length f reason rest
    hf pre 0 hpre
  refine ⟨?_, ?_, ?_⟩
  · simp only [reclaim]
    exact h.1
  · simp only [reclaim]
    exact h.2.1
  · simp only [reclaim]
    rw [h.2.2]

/-- C6 witness: the amended theorem applied to the five-entry scenario
failing at `p3`. -/
theorem c6_partial_failure_semantics_witness :
    (reclaim failOnP3 fiveFolders).attempted =
        (fiveFolders.take 2).map Folder.path ++ ["p3"] ∧
    (reclaim failOnP3 fiveFolders).deleted =
        (fiveFolders.take 2).map Folder.path ∧
    (reclaim failOnP3 fiveFolders).finalMessage =
      "Caught an exception while removing folders: " ++ "Permission denied" ++
        ". Aborting..." := by
  have h := c6_partial_failure_semantics failOnP3 (fiveFolders.take 2)
    { path := "p3", workspace_exists := false, is_old := true,
      sizeinbytes := 30 }
    (fiveFolders.drop 3) "Permission denied" (by decide) (by decide)
  simpa [fiveFolders] using h

/-- C8 counterexample: with 2675 eligible bytes of 100000 total, the
program divides in binary64 — the double nearest 2.675 lies just below
the tie — and `round(x, 2)` therefore reports 2.67, while the claim's
exact `100 * e / t` rounded to 2 decimal digits is 2.68 (the exact tie
267.5 rounds to the even 268): the reported percentage differs from the
exact formula's rounding. -/
theorem c8_float_rounding_cex :
    mainPercentageReport ulpFolders 100000 = some (267 / 100) ∧
    eligiblePercentageSpec 2675 100000 = 268 / 100 ∧
    mainPercentageReport ulpFolders 100000 ≠
      some (eligiblePercentageSpec (unwantedSize ulpFolders) 100000) := by
  have hsize : unwantedSize ulpFolders = 2675 := by decide
  have hne : ¬ unwantedFolders ulpFolders = [] := by decide
  have hp : float64Parts (100 * 2675) 100000 = (6023564501608038, 0, 51) := by
    decide
  have hdiv : trueDivFloat (100 * 2675) 100000 =
      (6023564501608038 : ℚ) / 2251799813685248 := by
    simp only [trueDivFloat, hp]
    norm_num
  have h1 : mainPercentageReport ulpFolders 100000 = some (267 / 100) := by
    rw [mainPercentageReport, if_neg hne, hsize, hdiv]
    norm_num [round2, roundHalfEven]
  have h2 : eligiblePercentageSpec 2675 100000 = 268 / 100 := by
    rw [eligiblePercentageSpec]
    norm_num [round2, roundHalfEven]
  refine ⟨h1, h2, ?_⟩
  rw [hsize, h1, h2]
  intro hcontra
  rw [Option.some.injEq] at hcontra
  norm_num at hcontra

/-- C8 (amended): when the deletion set is non-empty and the total size is
positive, the percentage computed by `main` is `round(·, 2)` applied to
the exact value of the binary64 quotient of `100 * totalEligibleBytes` by
`totalStorageBytes`; whenever that float division is exact this equals the
claim's `100 * e / t` rounded to 2 decimal digits — in particular the
1000-byte / 250-byte scenario yields exactly 25 — but when the quotient is
inexact the two can differ by a hundredth (see the counterexample). -/
theorem c8_percentage_float_semantics (folders : List Folder)
    (total_size : Nat) (h1 : unwantedFolders folders ≠ [])
    (_h2 : 0 < total_size)
    (hexact : trueDivFloat (100 * unwantedSize folders) total_size =
      (100 * (unwantedSize folders : ℚ)) / (total_size : ℚ)) :
    mainPercentageReport folders total_size =
      some (eligiblePercentageSpec (unwantedSize folders) total_size) ∧
    eligiblePercentageSpec 250 1000 = 25 := by
  constructor
  · rw [mainPercentageReport, if_neg h1, hexact, eligiblePercentageSpec]
  · have h25 : (100 * ((250 : Nat) : ℚ)) / ((1000 : Nat) : ℚ) * 100 = 2500 := by
      norm_num
    unfold eligiblePercentageSpec round2
    rw [h25]
    norm_num [roundHalfEven]

/-- C8 witness: the inventory `percentFolders` (stale 250-byte entry plus
live 750-byte entry, total 1000 bytes) instantiates the theorem: the
binary64 quotient 25000 / 1000 is exact, so the reported percentage is the
spec formula's value. -/
theorem c8_percentage_float_semantics_witness :
    mainPercentageReport percentFolders 1000 =
      some (eligiblePercentageSpec (unwantedSize percentFolders) 1000) ∧
    eligiblePercentageSpec 250 1000 = 25 :=
  c8_percentage_float_semantics percentFolders 1000 (by decide) (by decide)
    (by
      have hsize : unwantedSize percentFolders = 250 := by decide
      have hp : float64Parts (100 * 250) 1000 = (7036874417766400, 0, 48) := by
        decide
      rw [hsize]
      simp only [trueDivFloat, hp]
      norm_num)

/-- A successful scan in which no child was skipped accounts for the whole
root: the root's recursive size equals the sum of the inventory's entry
sizes. -/
theorem parse_ok_total_size (check : PathKind → Bool)
    (world : String → PathKind) (now : Int) :
    ∀ children l,
      parseWSSFolderWith check world now children = Except.ok l →
      l.length = children.length →
      getSizeOfRoot children = (l.map Folder.sizeinbytes).sum := by
  intro children
  induction children with
  | nil =>
    intro l hok hlen
    simp only [parseWSSFolderWith] at hok
    cases hok
    simp [getSizeOfRoot]
  | cons c rest ih =>
    intro l hok hlen
    cases c with
    | file name size => simp [parseWSSFolderWith, parseChildWith] at hok
    | entryDir name m mtime contents =>
      cases m with
      | missing => simp [parseWSSFolderWith, parseChildWith] at hok
      | malformed => simp [parseWSSFolderWith, parseChildWith] at hok
      | noFolderKey =>
        simp only [parseWSSFolderWith, parseChildWith] at hok
        have hle := parse_length_le check world now rest l hok
        rw [List.length_cons] at hlen
        omega
      | folderUri target =>
        simp only [parseWSSFolderWith, parseChildWith] at hok
        cases hrest : parseWSSFolderWith check world now rest with
        | error e => rw [hrest] at hok; cases hok
        | ok l' =>
          rw [hrest] at hok
          cases hok
          have hsum := ih l' hrest (by simpa using hlen)
          simp [getSizeOfRoot, hsum]

/-- C9: if the scan of the final script succeeds and classifies every
immediate child of the root (no entry skipped), the total storage size
computed by `getSizeOfFolder` on the root equals the sum of `sizeinbytes`
over the inventory. -/
theorem c9_total_storage_consistency (world : String → PathKind) (now : Int)
    (children : List RootChild) (l : List Folder)
    (hok : parseWSSFolder world now children = Except.ok l)
    (hlen : l.length = children.length) :
    getSizeOfRoot children = (l.map Folder.sizeinbytes).sum :=
  parse_ok_total_size isDirCheck world now children l hok hlen

/-- C9 witness: the two-entry root scanned under `oneDirWorld`, where both
children classify, has root size 60 + 140 = sum of the two entry sizes. -/
theorem c9_total_storage_consistency_witness :
    getSizeOfRoot twoEntryRoot =
      (([{ path := "aaa", workspace_exists := false, is_old := false,
            sizeinbytes := 60 },
          { path := "bbb", workspace_exists := true, is_old := false,
            sizeinbytes := 140 }] : List Folder).map Folder.sizeinbytes).sum :=
  c9_total_storage_consistency oneDirWorld 0 twoEntryRoot
    [{ path := "aaa", workspace_exists := false, is_old := false,
       sizeinbytes := 60 },
     { path := "bbb", workspace_exists := true, is_old := false,
       sizeinbytes := 140 }]
    (by simp [parseWSSFolder, parseWSSFolderWith, parseChildWith, twoEntryRoot,
        oneDirWorld, isDirCheck, isOld, timedeltaDays, getSizeOfFolder])
    (by decide)

/-- With a rank function witnessing acyclicity (every subdirectory edge
strictly decreases the rank), the fuelled size computation succeeds once
the fuel exceeds the root's rank. -/
theorem sizeDirFuel_terminates (g : Nat → List DirItem) (rank : Nat → Nat)
    (hdec : ∀ d d', DirItem.subdir d' ∈ g d → rank d' < rank d) :
    ∀ fuel d, rank d < fuel → ∃ n, sizeDirFuel g fuel d = some n := by
  intro fuel
  induction fuel with
  | zero => intro d h; omega
  | succ f ihf =>
    intro d hd
    have hitems : ∀ items,
        (∀ d', DirItem.subdir d' ∈ items → rank d' < f) →
        ∃ n, sizeItemsFuel g f items = some n := by
      intro items
      induction items with
      | nil => intro _; exact ⟨0, by simp [sizeItemsFuel]⟩
      | cons it rest ihr =>
        intro hsub
        cases it with
        | file s =>
          obtain ⟨r, hr⟩ :=
            ihr (fun d' hd' => hsub d' (List.mem_cons_of_mem _ hd'))
          exact ⟨s + r, by simp [sizeItemsFuel, hr]⟩
        | subdir d' =>
          have hd' : rank d' < f := hsub d' (List.mem_cons_self _ _)
          obtain ⟨a, ha⟩ := ihf d' hd'
          obtain ⟨b, hb⟩ :=
            ihr (fun x hx => hsub x (List.mem_cons_of_mem _ hx))
          exact ⟨a + b, by simp [sizeItemsFuel, ha, hb]⟩
    have hsubs : ∀ d', DirItem.subdir d' ∈ g d → rank d' < f := by
      intro d' hmem
      have := hdec d d' hmem
      omega
    obtain ⟨n, hn⟩ := hitems (g d) hsubs
    exact ⟨n, by simp [sizeDirFuel, hn]⟩

/-- On the one-directory cycle, the recursion never completes: no amount
of fuel produces a value. -/
theorem sizeDirFuel_loopGraph_none :
    ∀ fuel, sizeDirFuel loopGraph fuel 0 = none := by
  intro fuel
  induction fuel with
  | zero => simp [sizeDirFuel]
  | succ f ih => simp [sizeDirFuel, loopGraph, sizeItemsFuel, ih]

/-- C10: the recursion of `getSizeOfFolder`, read as a fuelled traversal of
a directory graph, terminates on every graph that admits a decreasing rank
(i.e. in which recursing into subdirectories never revisits a directory),
with any fuel above the root's rank; and on a self-referencing directory
(a symlink cycle) it diverges — no fuel suffices — so the acyclicity
precondition is required. -/
theorem c10_size_terminates_iff_acyclic :
    (∀ (g : Nat → List DirItem) (rank : Nat → Nat),
        (∀ d d', DirItem.subdir d' ∈ g d → rank d' < rank d) →
        ∀ fuel d, rank d < fuel → ∃ n, sizeDirFuel g fuel d = some n) ∧
    (∀ fuel, sizeDirFuel loopGraph fuel 0 = none) :=
  ⟨sizeDirFuel_terminates, sizeDirFuel_loopGraph_none⟩

/-- C10 witness: on the concrete acyclic two-directory graph, fuel 2
(above the root's rank 1) yields a value. -/
theorem c10_size_terminates_iff_acyclic_witness :
    ∃ n, sizeDirFuel acyclicGraph 2 0 = some n :=
  c10_size_terminates_iff_acyclic.1 acyclicGraph acyclicRank
    (by
      intro d d' h
      by_cases hd : d = 0
      · subst hd
        simp [acyclicGraph] at h
        subst h
        simp [acyclicRank]
      · by_cases hd1 : d = 1
        · subst hd1
          simp [acyclicGraph] at h
        · simp [acyclicGraph, hd, hd1] at h)
    2 0 (by simp [acyclicRank])
